import Mathlib

/-!
Shallow embedding of the TimeRibbons ribbon-generation and path-comparison
engine (src/js/app.js).  Geographic coordinates are modelled as exact
rationals (the JS code does exact-looking double arithmetic on small
city-scale coordinates); transcendental quantities (the haversine distance)
are modelled over the reals.  JS `Map`s and dictionary objects are modelled
as association lists or update functions; the asynchronous tile fetch is
modelled as an explicit oracle together with a fetch counter.
-/

/-- A geographic point, `[lat, lng]` in the JS source. -/
structure GeoPoint where
  lat : ℚ
  lng : ℚ
deriving DecidableEq, Inhabited

/-- A saved path (`pathData` in `savePath`): identity, point sequence,
display color and stored total distance. -/
structure PathData where
  id : ℕ
  geoPath : List GeoPoint
  color : String
  distance : ℝ
instance : Inhabited PathData := ⟨⟨0, [], "", 0⟩⟩

/-- JS `Math.atan2 y x`, modelled as the argument of the complex number
`x + y i`. -/
noncomputable def atan2 (y x : ℝ) : ℝ := Complex.arg ⟨x, y⟩

/-- `haversine(lat1, lng1, lat2, lng2)`: great-circle distance in meters,
Earth radius 6 371 000 m. -/
noncomputable def haversine (p q : GeoPoint) : ℝ :=
  let R : ℝ := 6371000
  let phi1 := (p.lat : ℝ) * Real.pi / 180
  let phi2 := (q.lat : ℝ) * Real.pi / 180
  let dphi := ((q.lat : ℝ) - (p.lat : ℝ)) * Real.pi / 180
  let dlam := ((q.lng : ℝ) - (p.lng : ℝ)) * Real.pi / 180
  let a := Real.sin (dphi / 2) ^ 2 +
    Real.cos phi1 * Real.cos phi2 * Real.sin (dlam / 2) ^ 2
  let c := 2 * atan2 (Real.sqrt a) (Real.sqrt (1 - a))
  R * c

/-- `computeCumulativeDistances(geoPath)`: prefix sums of the haversine
distances of consecutive point pairs, starting at `[0]`. -/
noncomputable def computeCumulativeDistances (geoPath : List GeoPoint) : List ℝ :=
  (List.zipWith haversine geoPath geoPath.tail).scanl (· + ·) 0

/-- `calculateDistanceForPath(geoPath)`: the last cumulative distance. -/
noncomputable def calculateDistanceForPath (geoPath : List GeoPoint) : ℝ :=
  (computeCumulativeDistances geoPath).getLastD 0

/-- Result record of `segmentIntersection`: intersection point plus the
fractional parameters `t` (along `p1→p2`) and `u` (along `p3→p4`). -/
structure SegResult where
  lat : ℚ
  lng : ℚ
  t : ℚ
  u : ℚ
deriving DecidableEq, Inhabited

/-- The cross-product denominator of `segmentIntersection`. -/
def segDenom (p1 p2 p3 p4 : GeoPoint) : ℚ :=
  (p2.lat - p1.lat) * (p4.lng - p3.lng) - (p2.lng - p1.lng) * (p4.lat - p3.lat)

/-- The raw parameter `t` of `segmentIntersection` (meaningful when the
denominator is nonzero). -/
def segT (p1 p2 p3 p4 : GeoPoint) : ℚ :=
  ((p3.lat - p1.lat) * (p4.lng - p3.lng) - (p3.lng - p1.lng) * (p4.lat - p3.lat)) /
    segDenom p1 p2 p3 p4

/-- The raw parameter `u` of `segmentIntersection` (meaningful when the
denominator is nonzero). -/
def segU (p1 p2 p3 p4 : GeoPoint) : ℚ :=
  ((p3.lat - p1.lat) * (p2.lng - p1.lng) - (p3.lng - p1.lng) * (p2.lat - p1.lat)) /
    segDenom p1 p2 p3 p4

/-- `segmentIntersection(p1, p2, p3, p4)`: 2D segment-segment intersection
in the flat `(lat, lng)` plane.  Returns `none` for parallel/coincident
segments (`|denom| < 1e-12`) and when `t` or `u` falls outside `[0, 1]`. -/
def segmentIntersection (p1 p2 p3 p4 : GeoPoint) : Option SegResult :=
  if |segDenom p1 p2 p3 p4| < 1 / 1000000000000 then none
  else if segT p1 p2 p3 p4 < 0 ∨ segT p1 p2 p3 p4 > 1 ∨
      segU p1 p2 p3 p4 < 0 ∨ segU p1 p2 p3 p4 > 1 then none
  else some ⟨p1.lat + segT p1 p2 p3 p4 * (p2.lat - p1.lat),
    p1.lng + segT p1 p2 p3 p4 * (p2.lng - p1.lng),
    segT p1 p2 p3 p4, segU p1 p2 p3 p4⟩

/-- One crossing found by `findPathCrossings`: geographic point plus the
arc-length fractions along each of the two paths. -/
structure CrossingAB where
  lat : ℚ
  lng : ℚ
  distFractionA : ℝ
  distFractionB : ℝ
instance : Inhabited CrossingAB := ⟨⟨0, 0, 0, 0⟩⟩

/-- The crossing record built by `findPathCrossings` for the segment pair
`(i, j)` when `segmentIntersection` reports a hit there. -/
noncomputable def crossingOfPair (pathA pathB : PathData) (distA distB : List ℝ)
    (totalA totalB : ℝ) (i j : ℕ) : Option CrossingAB :=
  match segmentIntersection (pathA.geoPath.getD i default) (pathA.geoPath.getD (i + 1) default)
      (pathB.geoPath.getD j default) (pathB.geoPath.getD (j + 1) default) with
  | none => none
  | some result =>
    let crossDistA := distA.getD i 0 + (result.t : ℝ) * (distA.getD (i + 1) 0 - distA.getD i 0)
    let crossDistB := distB.getD j 0 + (result.u : ℝ) * (distB.getD (j + 1) 0 - distB.getD j 0)
    some ⟨result.lat, result.lng,
      if totalA > 0 then crossDistA / totalA else 0,
      if totalB > 0 then crossDistB / totalB else 0⟩

/-- `findPathCrossings(pathA, pathB)`: all segment-pair intersections of the
two paths, with arc-length fractions.  The JS reference-equality test
`pathA === pathB` is modelled by comparing path identities, which are unique
per saved path.  For the self case segment `j` starts at `i + 2`. -/
noncomputable def findPathCrossings (pathA pathB : PathData) : List CrossingAB :=
  let isSelf := pathA.id = pathB.id
  let distA := computeCumulativeDistances pathA.geoPath
  let distB := if isSelf then distA else computeCumulativeDistances pathB.geoPath
  let totalA := distA.getLastD 0
  let totalB := distB.getLastD 0
  (List.range (pathA.geoPath.length - 1)).flatMap fun i =>
    let jStart := if isSelf then i + 2 else 0
    (List.range' jStart (pathB.geoPath.length - 1 - jStart)).flatMap fun j =>
      match crossingOfPair pathA pathB distA distB totalA totalB i j with
      | none => []
      | some c => [c]

/-- One entry of a per-path crossing list built by `computeAllCrossings`. -/
structure CrossEntry where
  distFraction : ℝ
  otherColor : String
  otherPathId : ℕ
  lat : ℚ
  lng : ℚ
instance : Inhabited CrossEntry := ⟨⟨0, "", 0, 0, 0⟩⟩

/-- The entry pushed onto `pathA`'s list for a crossing of `(pathA, pathB)`:
fraction along A, "other" fields from B. -/
def entryA (_pathA pathB : PathData) (c : CrossingAB) : CrossEntry :=
  ⟨c.distFractionA, pathB.color, pathB.id, c.lat, c.lng⟩

/-- The entry pushed onto `pathB`'s list for a crossing of `(pathA, pathB)`:
fraction along B, "other" fields from A. -/
def entryB (pathA _pathB : PathData) (c : CrossingAB) : CrossEntry :=
  ⟨c.distFractionB, pathA.color, pathA.id, c.lat, c.lng⟩

/-- `crossingsByPath[id].push(e)`, on the dictionary modelled as a function
from path id to entry list. -/
def pushEntry (m : ℕ → List CrossEntry) (id : ℕ) (e : CrossEntry) : ℕ → List CrossEntry :=
  fun k => if k = id then m k ++ [e] else m k

/-- The loop of `computeAllCrossings` over the crossings of one ordered pair
`(pathA, pathB)`: each crossing pushes its A-entry onto `pathA`'s list and
its B-entry onto `pathB`'s list (for the self case both land on the same
list, A-entry first). -/
noncomputable def pairFold (pathA pathB : PathData) (m : ℕ → List CrossEntry) :
    ℕ → List CrossEntry :=
  (findPathCrossings pathA pathB).foldl
    (fun m c => pushEntry (pushEntry m pathA.id (entryA pathA pathB c)) pathB.id
      (entryB pathA pathB c)) m

/-- `computeAllCrossings(paths)`: per-path crossing lists for every unordered
pair of paths, including each path with itself. -/
noncomputable def computeAllCrossings (paths : List PathData) : ℕ → List CrossEntry :=
  (List.range paths.length).foldl
    (fun m a =>
      let pa := paths.getD a default
      let m := pairFold pa pa m
      (List.range' (a + 1) (paths.length - (a + 1))).foldl
        (fun m b => pairFold pa (paths.getD b default) m) m)
    (fun _ => [])

/-- Everything one ordered pair `(pathA, pathB)` contributes to the
crossing list of path id `k`. -/
noncomputable def pairContrib (pathA pathB : PathData) (k : ℕ) : List CrossEntry :=
  (findPathCrossings pathA pathB).flatMap fun c =>
    (if k = pathA.id then [entryA pathA pathB c] else []) ++
    (if k = pathB.id then [entryB pathA pathB c] else [])

/-- Everything iteration `a` of the outer loop of `computeAllCrossings`
contributes to the crossing list of path id `k`. -/
noncomputable def iterContrib (paths : List PathData) (a : ℕ) (k : ℕ) : List CrossEntry :=
  pairContrib (paths.getD a default) (paths.getD a default) k ++
  (List.range' (a + 1) (paths.length - (a + 1))).flatMap
    (fun b => pairContrib (paths.getD a default) (paths.getD b default) k)

/-- JS `x.toFixed(8)` as an integer count of 1e-8 units: decimal rounding,
ties toward positive infinity (ECMA `toFixed` picks the larger candidate). -/
def round8 (x : ℚ) : ℤ := (x * 100000000 + 1 / 2).floor

/-- The coordinate dedup key `lat.toFixed(8) + "," + lng.toFixed(8)` of a
crossing entry, modelled as the pair of rounded coordinates. -/
def keyOf (lat lng : ℚ) : ℤ × ℤ := (round8 lat, round8 lng)

/-- `state.alignment`: the crossing key and anchor path of the current
alignment. -/
structure AlignmentState where
  crossingKey : ℤ × ℤ
  anchorPathId : ℕ
deriving DecidableEq

/-- The layout padding constant (`const padding = 20`). -/
def padding : ℝ := 20

/-- One entry of the `layouts` array of `renderAllRibbons`. -/
structure Layout where
  pathId : ℕ
  ribbonWidth : ℝ

/-- JS `Math.max(...xs)` for a nonempty list (the empty case is unreachable
in the source, which guards on `paths.length === 0`; `Math.max()` itself
would be `-Infinity`). -/
noncomputable def listMax : List ℝ → ℝ
  | [] => 0
  | x :: xs => xs.foldl max x

/-- `maxDistance = Math.max(...state.paths.map(p => p.distance))`. -/
noncomputable def maxDistance (paths : List PathData) : ℝ := listMax (paths.map (·.distance))

/-- The pre-computed ribbon layouts of `renderAllRibbons`:
`ribbonWidth = (path.distance / maxDistance) * (viewportWidth - padding * 2)`. -/
noncomputable def ribbonLayouts (paths : List PathData) (viewportWidth : ℝ) : List Layout :=
  paths.map fun path =>
    ⟨path.id, path.distance / maxDistance paths * (viewportWidth - padding * 2)⟩

/-- The drawOffsets dictionary, modelled as a partial map from path id to
offset; absent entries read as 0 via `|| 0` at the use sites. -/
def offsetsUpdate (m : ℕ → Option ℝ) (id : ℕ) (v : ℝ) : ℕ → Option ℝ :=
  fun k => if k = id then some v else m k

/-- The offset assigned to one layout inside the alignment loop of
`renderAllRibbons`: 0 for the anchor, `anchorX - thisX` for a matched
ribbon, 0 for an unmatched one. -/
noncomputable def offVal (crossingsByPath : ℕ → List CrossEntry) (key : ℤ × ℤ)
    (anchorX : ℝ) (anchorPathId : ℕ) (layout : Layout) : ℝ :=
  if layout.pathId = anchorPathId then 0
  else
    match (crossingsByPath layout.pathId).find?
        (fun c => decide (keyOf c.lat c.lng = key)) with
    | some m => anchorX - (padding + m.distFraction * layout.ribbonWidth)
    | none => 0

/-- One iteration of the alignment loop: record the layout's offset and
track the minimum left edge and maximum right edge (the anchor is skipped
by `continue` and only contributes through the initial accumulator). -/
noncomputable def alignStep (crossingsByPath : ℕ → List CrossEntry) (key : ℤ × ℤ)
    (anchorX : ℝ) (anchorPathId : ℕ) (acc : (ℕ → Option ℝ) × ℝ × ℝ) (layout : Layout) :
    (ℕ → Option ℝ) × ℝ × ℝ :=
  if layout.pathId = anchorPathId then
    (offsetsUpdate acc.1 layout.pathId 0, acc.2.1, acc.2.2)
  else
    let off := offVal crossingsByPath key anchorX anchorPathId layout
    let start := padding + off
    (offsetsUpdate acc.1 layout.pathId off,
      min acc.2.1 start, max acc.2.2 (start + layout.ribbonWidth))

/-- Result of the alignment block of `renderAllRibbons`: the (shifted)
drawOffsets dictionary, total canvas width, scroll target, and the
alignment state that survives the block (`none` when the referenced
anchor crossing no longer resolves). -/
structure AlignmentLayout where
  drawOffsets : ℕ → Option ℝ
  totalCanvasWidth : ℝ
  scrollTarget : ℝ
  alignmentOut : Option AlignmentState

/-- The alignment block of `renderAllRibbons` (the `if (aligned) { ... }`
body): locate the anchor crossing, compute per-ribbon offsets, apply the
global shift, and size the canvas; reset the alignment when the anchor
crossing or anchor layout cannot be found. -/
noncomputable def computeAlignmentOffsets (layouts : List Layout)
    (crossingsByPath : ℕ → List CrossEntry) (al : AlignmentState)
    (viewportWidth : ℝ) : AlignmentLayout :=
  let anchorLayout? := layouts.find? (fun l => decide (l.pathId = al.anchorPathId))
  let anchorCrossing? := (crossingsByPath al.anchorPathId).find?
    (fun c => decide (keyOf c.lat c.lng = al.crossingKey))
  match anchorCrossing?, anchorLayout? with
  | some anchorCrossing, some anchorLayout =>
    let anchorX := padding + anchorCrossing.distFraction * anchorLayout.ribbonWidth
    let folded := layouts.foldl
      (alignStep crossingsByPath al.crossingKey anchorX al.anchorPathId)
      ((fun _ => none), padding, padding + anchorLayout.ribbonWidth)
    let minStart := folded.2.1
    let maxEnd := folded.2.2
    let globalShift := if minStart < 0 then -minStart + padding else 0
    { drawOffsets := fun k => (folded.1 k).map (· + globalShift)
      totalCanvasWidth := maxEnd + globalShift + padding
      scrollTarget := anchorX + globalShift - viewportWidth / 2
      alignmentOut := some al }
  | _, _ =>
    { drawOffsets := fun _ => none
      totalCanvasWidth := 0
      scrollTarget := 0
      alignmentOut := none }

/-- The run-time error class of the embedding: dereferencing a null
`state.alignment`. -/
inductive JsError where
  | nullDeref
deriving DecidableEq

/-- Per-ribbon data assembled by the render loop of `renderAllRibbons`
(the parts of `ribbonMeta` the layout claims are about). -/
structure RibbonRowMeta where
  pathId : ℕ
  isAnchor : Bool
  drawOffset : ℝ
  crossingDist : Option ℝ
  effectivePadding : ℝ

/-- The `for (const path of state.paths)` loop of `renderAllRibbons`.
`alignedFlag` is the value of `aligned` captured before the alignment
block ran; `alignment` is `state.alignment` as it stands after the block.
Reading `state.alignment.anchorPathId` while `state.alignment` is null is
a JS `TypeError`, modelled as `JsError.nullDeref`. -/
noncomputable def renderRowsLoop (alignedFlag : Bool) (alignment : Option AlignmentState)
    (crossingsByPath : ℕ → List CrossEntry) (drawOffsets : ℕ → Option ℝ) :
    List PathData → Except JsError (List RibbonRowMeta)
  | [] => .ok []
  | path :: rest => do
    let isAnchor ←
      if alignedFlag then
        match alignment with
        | some al => Except.ok (decide (path.id = al.anchorPathId))
        | none => Except.error JsError.nullDeref
      else Except.ok false
    let crossingDist ←
      if alignedFlag && !isAnchor then
        match alignment with
        | some al =>
          Except.ok (match (crossingsByPath path.id).find?
              (fun c => decide (keyOf c.lat c.lng = al.crossingKey)) with
            | some m => some (m.distFraction * path.distance)
            | none => none)
        | none => Except.error JsError.nullDeref
      else Except.ok none
    let drawOffset := (drawOffsets path.id).getD 0
    let tail ← renderRowsLoop alignedFlag alignment crossingsByPath drawOffsets rest
    Except.ok (⟨path.id, isAnchor, drawOffset, crossingDist, padding + drawOffset⟩ :: tail)

/-- Result of one `renderAllRibbons` pass. -/
structure RenderResult where
  metas : List RibbonRowMeta
  totalCanvasWidth : ℝ
  scrollTarget : ℝ
  alignmentOut : Option AlignmentState

/-- `renderAllRibbons()`: the layout portion of the render pass, over the
explicit state `(paths, alignment)`.  `aligned` is captured before the
alignment block; a stale alignment is reset inside the block, after which
the render loop still dereferences it. -/
noncomputable def renderAllRibbonsModel (paths : List PathData)
    (alignment : Option AlignmentState) (viewportWidth : ℝ) :
    Except JsError RenderResult :=
  if paths.length = 0 then .ok ⟨[], 0, 0, alignment⟩
  else
    let crossingsByPath := computeAllCrossings paths
    let layouts := ribbonLayouts paths viewportWidth
    let alignedFlag := alignment.isSome
    let block :=
      match alignment with
      | some al => computeAlignmentOffsets layouts crossingsByPath al viewportWidth
      | none => ⟨fun _ => none, 0, 0, none⟩
    match renderRowsLoop alignedFlag block.alignmentOut crossingsByPath
        block.drawOffsets paths with
    | .ok metas => .ok ⟨metas, block.totalCanvasWidth, block.scrollTarget, block.alignmentOut⟩
    | .error e => .error e

/-- JS `Map` lookup over an association list (`Map.get`, with `Map.has`
being `isSome` of this). -/
def mapGet {K V : Type} [DecidableEq K] : List (K × V) → K → Option V
  | [], _ => none
  | (k, v) :: rest, key => if k = key then some v else mapGet rest key

/-- `getTile(x, y, z)` over an explicit cache and fetch oracle.  The cache
maps a tile key to `Option Img`, where `none` is the cached "fetch failed"
null from `loadTile`.  Returns the tile value, the updated cache, and the
number of underlying fetches performed (0 or 1). -/
def getTile {Img : Type} (fetch : ℤ → ℤ → ℤ → Option Img)
    (cache : List ((ℤ × ℤ × ℤ) × Option Img)) (x y z : ℤ) :
    Option Img × List ((ℤ × ℤ × ℤ) × Option Img) × ℕ :=
  let key := (z, x, y)
  match mapGet cache key with
  | some v => (v, cache, 0)
  | none => (fetch x y z, (key, fetch x y z) :: cache, 1)

/-- The three-trajectory scenario: lengths 1000 m, 500 m and 2000 m. -/
def scenarioPaths : List PathData :=
  [⟨1, [], "colorA", 1000⟩, ⟨2, [], "colorB", 500⟩, ⟨3, [], "colorC", 2000⟩]

/-- The 20-point figure-eight trajectory: a long horizontal run, a loop
back over it crossing exactly once (between segments 5 and 12), and a
tail moving away. -/
def fig8 : PathData :=
  ⟨1,
   [⟨0, 0⟩, ⟨1, 0⟩, ⟨2, 0⟩, ⟨3, 0⟩, ⟨4, 0⟩, ⟨5, 0⟩, ⟨6, 0⟩, ⟨7, 0⟩, ⟨8, 0⟩, ⟨9, 0⟩,
    ⟨10, 0⟩, ⟨10, 3⟩, ⟨11/2, 3⟩, ⟨11/2, -3⟩, ⟨6, -4⟩, ⟨7, -5⟩, ⟨8, -6⟩, ⟨9, -7⟩,
    ⟨10, -8⟩, ⟨11, -9⟩],
   "colorOne", 0⟩

/-- The stale-alignment failing input: one saved path and an alignment
state whose crossing key matches no crossing of that path. -/
def stalePaths : List PathData := [⟨1, [⟨0, 0⟩, ⟨1, 1⟩], "colorD", 100⟩]

/-- Witness path A: the rising diagonal of the unit X. -/
def pathX : PathData := ⟨1, [⟨0, 0⟩, ⟨1, 1⟩], "colorA", 100⟩

/-- Witness path B: the falling diagonal of the unit X. -/
def pathY : PathData := ⟨2, [⟨0, 1⟩, ⟨1, 0⟩], "colorB", 200⟩

/-- Witness layouts: anchor ribbon (id 1) of width 960, second ribbon
(id 2) of width 480. -/
def wLayouts : List Layout := [⟨1, 960⟩, ⟨2, 480⟩]

/-- Witness crossing lists: both ribbons carry one crossing at the origin,
at fractions 1/2 and 1/4 of their lengths respectively. -/
noncomputable def wCbp : ℕ → List CrossEntry := fun id =>
  if id = 1 then [⟨1/2, "colorB", 2, 0, 0⟩]
  else if id = 2 then [⟨1/4, "colorA", 1, 0, 0⟩]
  else []

/-- Witness alignment state: anchor ribbon 1, the origin crossing key. -/
def wAlign : AlignmentState := ⟨(0, 0), 1⟩

attribute [local semireducible] Rat.add Rat.sub Rat.mul Rat.inv Rat.ofScientific

lemma segDenom_swap (p1 p2 p3 p4 : GeoPoint) :
    segDenom p3 p4 p1 p2 = -segDenom p1 p2 p3 p4 := by
  unfold segDenom; ring

lemma segT_swap (p1 p2 p3 p4 : GeoPoint) :
    segT p3 p4 p1 p2 = segU p1 p2 p3 p4 := by
  unfold segT segU
  rw [segDenom_swap]
  rw [show ((p1.lat - p3.lat) * (p2.lng - p1.lng) - (p1.lng - p3.lng) * (p2.lat - p1.lat)) =
    -((p3.lat - p1.lat) * (p2.lng - p1.lng) - (p3.lng - p1.lng) * (p2.lat - p1.lat)) by ring]
  exact neg_div_neg_eq _ _

lemma segU_swap (p1 p2 p3 p4 : GeoPoint) :
    segU p3 p4 p1 p2 = segT p1 p2 p3 p4 := by
  unfold segT segU
  rw [segDenom_swap]
  rw [show ((p1.lat - p3.lat) * (p4.lng - p3.lng) - (p1.lng - p3.lng) * (p4.lat - p3.lat)) =
    -((p3.lat - p1.lat) * (p4.lng - p3.lng) - (p3.lng - p1.lng) * (p4.lat - p3.lat)) by ring]
  exact neg_div_neg_eq _ _

lemma seg_point_on_second (p1 p2 p3 p4 : GeoPoint) (h : segDenom p1 p2 p3 p4 ≠ 0) :
    p1.lat + segT p1 p2 p3 p4 * (p2.lat - p1.lat) =
      p3.lat + segU p1 p2 p3 p4 * (p4.lat - p3.lat) ∧
    p1.lng + segT p1 p2 p3 p4 * (p2.lng - p1.lng) =
      p3.lng + segU p1 p2 p3 p4 * (p4.lng - p3.lng) := by
  unfold segT segU at *
  constructor <;> (field_simp; unfold segDenom at *; ring)

lemma segmentIntersection_some_iff (p1 p2 p3 p4 : GeoPoint) (r : SegResult) :
    segmentIntersection p1 p2 p3 p4 = some r ↔
      ¬ |segDenom p1 p2 p3 p4| < 1 / 1000000000000 ∧
      ¬ (segT p1 p2 p3 p4 < 0 ∨ segT p1 p2 p3 p4 > 1 ∨
         segU p1 p2 p3 p4 < 0 ∨ segU p1 p2 p3 p4 > 1) ∧
      r = ⟨p1.lat + segT p1 p2 p3 p4 * (p2.lat - p1.lat),
           p1.lng + segT p1 p2 p3 p4 * (p2.lng - p1.lng),
           segT p1 p2 p3 p4, segU p1 p2 p3 p4⟩ := by
  unfold segmentIntersection
  split_ifs with h1 h2
  · exact ⟨(fun h => nomatch h), fun h => absurd h1 h.1⟩
  · exact ⟨(fun h => nomatch h), fun h => absurd h2 h.2.1⟩
  · exact ⟨fun h => ⟨h1, h2, (Option.some_inj.mp h).symm⟩, fun h => by rw [h.2.2]⟩

/-- C6: `segmentIntersection` returns no intersection for parallel or
coincident segments (cross-product magnitude below 1e-12) or when `t` or
`u` falls outside `[0,1]`; any returned result has `t, u ∈ [0,1]`, with `t`
the fractional position along `p1→p2` and `u` along `p3→p4`; the unit X
`(0,0)-(1,1)` × `(0,1)-(1,0)` intersects at `t = u = 0.5`. -/
theorem segmentIntersection_spec :
    (∀ p1 p2 p3 p4 : GeoPoint, |segDenom p1 p2 p3 p4| < 1 / 1000000000000 →
        segmentIntersection p1 p2 p3 p4 = none) ∧
    (∀ p1 p2 p3 p4 : GeoPoint,
        (segT p1 p2 p3 p4 < 0 ∨ segT p1 p2 p3 p4 > 1 ∨
         segU p1 p2 p3 p4 < 0 ∨ segU p1 p2 p3 p4 > 1) →
        segmentIntersection p1 p2 p3 p4 = none) ∧
    (∀ (p1 p2 p3 p4 : GeoPoint) (r : SegResult),
        segmentIntersection p1 p2 p3 p4 = some r →
        0 ≤ r.t ∧ r.t ≤ 1 ∧ 0 ≤ r.u ∧ r.u ≤ 1 ∧
        r.lat = p1.lat + r.t * (p2.lat - p1.lat) ∧
        r.lng = p1.lng + r.t * (p2.lng - p1.lng) ∧
        r.lat = p3.lat + r.u * (p4.lat - p3.lat) ∧
        r.lng = p3.lng + r.u * (p4.lng - p3.lng)) ∧
    segmentIntersection ⟨0, 0⟩ ⟨1, 1⟩ ⟨0, 1⟩ ⟨1, 0⟩ = some ⟨1/2, 1/2, 1/2, 1/2⟩ := by
  refine ⟨?_, ?_, ?_, by decide⟩
  · intro p1 p2 p3 p4 h
    unfold segmentIntersection
    rw [if_pos h]
  · intro p1 p2 p3 p4 h
    unfold segmentIntersection
    split_ifs <;> rfl
  · intro p1 p2 p3 p4 r hr
    rw [segmentIntersection_some_iff] at hr
    obtain ⟨hd, hrange, rfl⟩ := hr
    push_neg at hrange
    obtain ⟨ht0, ht1, hu0, hu1⟩ := hrange
    have hdne : segDenom p1 p2 p3 p4 ≠ 0 := by
      intro h0
      exact hd (by rw [h0]; norm_num)
    have hpt := seg_point_on_second p1 p2 p3 p4 hdne
    exact ⟨ht0, ht1, hu0, hu1, rfl, rfl, hpt.1, hpt.2⟩

/-- C6 witness: concrete instances of each hypothesis-bearing conjunct. -/
theorem segmentIntersection_spec_witness :
    (|segDenom ⟨0, 0⟩ ⟨1, 0⟩ ⟨0, 1⟩ ⟨1, 1⟩| < 1 / 1000000000000 ∧
      segmentIntersection ⟨0, 0⟩ ⟨1, 0⟩ ⟨0, 1⟩ ⟨1, 1⟩ = none) ∧
    (segT ⟨0, 0⟩ ⟨1, 1⟩ ⟨4, 5⟩ ⟨5, 4⟩ > 1 ∧
      segmentIntersection ⟨0, 0⟩ ⟨1, 1⟩ ⟨4, 5⟩ ⟨5, 4⟩ = none) ∧
    (segmentIntersection ⟨0, 0⟩ ⟨1, 1⟩ ⟨0, 1⟩ ⟨1, 0⟩ = some ⟨1/2, 1/2, 1/2, 1/2⟩ ∧
      0 ≤ (1/2 : ℚ) ∧ (1/2 : ℚ) ≤ 1) := by
  refine ⟨⟨by decide, segmentIntersection_spec.1 _ _ _ _ (by decide)⟩,
    ⟨by decide, segmentIntersection_spec.2.1 _ _ _ _ (Or.inr (Or.inl (by decide)))⟩,
    segmentIntersection_spec.2.2.2, ?_, ?_⟩
  · exact (segmentIntersection_spec.2.2.1 _ _ _ _ _ segmentIntersection_spec.2.2.2).1
  · exact (segmentIntersection_spec.2.2.1 _ _ _ _ _ segmentIntersection_spec.2.2.2).2.1

/-- C10: `segmentIntersection` is symmetric under swapping the two
segments: the swapped call succeeds exactly when the original does, and
the results have `t`/`u` exchanged and the same intersection point. -/
theorem segmentIntersection_swap_spec :
    ∀ p1 p2 p3 p4 : GeoPoint,
      ((segmentIntersection p3 p4 p1 p2).isSome ↔
        (segmentIntersection p1 p2 p3 p4).isSome) ∧
      (∀ r r' : SegResult, segmentIntersection p1 p2 p3 p4 = some r →
        segmentIntersection p3 p4 p1 p2 = some r' →
        r'.t = r.u ∧ r'.u = r.t ∧ r'.lat = r.lat ∧ r'.lng = r.lng) := by
  intro p1 p2 p3 p4
  constructor
  · unfold segmentIntersection
    rw [segDenom_swap p1 p2 p3 p4, abs_neg, segT_swap p1 p2 p3 p4, segU_swap p1 p2 p3 p4]
    split_ifs with h1 h2 h3 <;>
      first
        | rfl
        | (exfalso; tauto)
  · intro r r' hr hr'
    rw [segmentIntersection_some_iff] at hr hr'
    obtain ⟨hd, -, rfl⟩ := hr
    obtain ⟨-, -, rfl⟩ := hr'
    dsimp only
    rw [segT_swap p1 p2 p3 p4, segU_swap p1 p2 p3 p4]
    have hdne : segDenom p1 p2 p3 p4 ≠ 0 := by
      intro h0
      exact hd (by rw [h0]; norm_num)
    have hpt := seg_point_on_second p1 p2 p3 p4 hdne
    exact ⟨rfl, rfl, hpt.1.symm, hpt.2.symm⟩

/-- C10 witness: the swap symmetry at the unit X. -/
theorem segmentIntersection_swap_witness :
    (1/2 : ℚ) = 1/2 ∧ (1/2 : ℚ) = 1/2 := by
  have h := (segmentIntersection_swap_spec ⟨0, 0⟩ ⟨1, 1⟩ ⟨0, 1⟩ ⟨1, 0⟩).2
    ⟨1/2, 1/2, 1/2, 1/2⟩ ⟨1/2, 1/2, 1/2, 1/2⟩ (by decide) (by decide)
  exact ⟨h.1, h.2.1⟩

lemma atan2_nonneg {y x : ℝ} (h : 0 ≤ y) : 0 ≤ atan2 y x :=
  Complex.arg_nonneg_iff.mpr h

lemma haversine_nonneg (p q : GeoPoint) : 0 ≤ haversine p q := by
  unfold haversine
  dsimp only
  exact mul_nonneg (by norm_num)
    (mul_nonneg (by norm_num) (atan2_nonneg (Real.sqrt_nonneg _)))

lemma zipWith_haversine_nonneg (l1 l2 : List GeoPoint) :
    ∀ y ∈ List.zipWith haversine l1 l2, 0 ≤ y := by
  induction l1 generalizing l2 with
  | nil => simp
  | cons a t ih =>
    cases l2 with
    | nil => simp
    | cons b t2 =>
      intro y hy
      rcases List.mem_cons.mp hy with h | h
      · exact h ▸ haversine_nonneg a b
      · exact ih t2 y h

lemma scanl_add_head_eq (l : List ℝ) (b : ℝ) : (l.scanl (· + ·) b).head? = some b := by
  cases l <;> simp [List.scanl_nil, List.scanl_cons]

lemma scanl_add_le_mem (l : List ℝ) (b : ℝ) (h : ∀ x ∈ l, 0 ≤ x) :
    ∀ y ∈ l.scanl (· + ·) b, b ≤ y := by
  induction l generalizing b with
  | nil => simp [List.scanl_nil]
  | cons a t ih =>
    intro y hy
    rw [List.scanl_cons] at hy
    rcases List.mem_cons.mp hy with rfl | hy
    · exact le_refl y
    · calc b ≤ b + a := le_add_of_nonneg_right (h a (List.mem_cons_self a t))
        _ ≤ y := ih (b + a) (fun x hx => h x (List.mem_cons_of_mem a hx)) y hy

lemma scanl_add_pairwise (l : List ℝ) (b : ℝ) (h : ∀ x ∈ l, 0 ≤ x) :
    (l.scanl (· + ·) b).Pairwise (· ≤ ·) := by
  induction l generalizing b with
  | nil => simp [List.scanl_nil]
  | cons a t ih =>
    rw [List.scanl_cons]
    refine List.Pairwise.cons ?_ (ih (b + a) fun x hx => h x (List.mem_cons_of_mem a hx))
    intro y hy
    calc b ≤ b + a := le_add_of_nonneg_right (h a (List.mem_cons_self a t))
      _ ≤ y := scanl_add_le_mem t (b + a) (fun x hx => h x (List.mem_cons_of_mem a hx)) y hy

lemma scanl_add_getLastD (l : List ℝ) (b d : ℝ) :
    (l.scanl (· + ·) b).getLastD d = b + l.sum := by
  induction l generalizing b d with
  | nil => simp [List.scanl_nil]
  | cons a t ih =>
    rw [List.scanl_cons, List.singleton_append, List.getLastD_cons, ih]
    rw [List.sum_cons]
    ring

/-- C7: the cumulative-distance array starts at 0, is non-decreasing, and
its last element (the trajectory totalDistance) is the sum of the haversine
distances of consecutive point pairs. -/
theorem computeCumulativeDistances_spec (geoPath : List GeoPoint) :
    (computeCumulativeDistances geoPath).head? = some 0 ∧
    (computeCumulativeDistances geoPath).Pairwise (· ≤ ·) ∧
    calculateDistanceForPath geoPath =
      (List.zipWith haversine geoPath geoPath.tail).sum := by
  refine ⟨scanl_add_head_eq _ 0,
    scanl_add_pairwise _ 0 (zipWith_haversine_nonneg geoPath geoPath.tail), ?_⟩
  unfold calculateDistanceForPath computeCumulativeDistances
  rw [scanl_add_getLastD]
  ring

lemma foldl_max_bounds (xs : List ℝ) (x : ℝ) :
    x ≤ xs.foldl max x ∧ ∀ y ∈ xs, y ≤ xs.foldl max x := by
  induction xs generalizing x with
  | nil => simp
  | cons a t ih =>
    rw [List.foldl_cons]
    refine ⟨le_trans (le_max_left x a) (ih (max x a)).1, ?_⟩
    intro y hy
    rcases List.mem_cons.mp hy with rfl | h
    · exact le_trans (le_max_right x y) (ih (max x y)).1
    · exact (ih (max x a)).2 y h

lemma foldl_max_mem (xs : List ℝ) (x : ℝ) :
    xs.foldl max x = x ∨ xs.foldl max x ∈ xs := by
  induction xs generalizing x with
  | nil => simp
  | cons a t ih =>
    rw [List.foldl_cons]
    rcases ih (max x a) with h | h
    · rcases max_cases x a with ⟨he, -⟩ | ⟨he, -⟩
      · left; rw [h, he]
      · right; rw [h, he]; exact List.mem_cons_self a t
    · right; exact List.mem_cons_of_mem a h

lemma maxDistance_is_max (paths : List PathData) (hne : paths ≠ []) :
    (∀ p ∈ paths, p.distance ≤ maxDistance paths) ∧
    (∃ p ∈ paths, maxDistance paths = p.distance) := by
  cases paths with
  | nil => exact absurd rfl hne
  | cons p ps =>
    unfold maxDistance listMax
    rw [List.map_cons]
    constructor
    · intro q hq
      rcases List.mem_cons.mp hq with rfl | h
      · exact (foldl_max_bounds (ps.map (·.distance)) q.distance).1
      · exact (foldl_max_bounds (ps.map (·.distance)) p.distance).2 q.distance
          (List.mem_map_of_mem _ h)
    · rcases foldl_max_mem (ps.map (·.distance)) p.distance with h | h
      · exact ⟨p, List.mem_cons_self p ps, h⟩
      · obtain ⟨q, hq, he⟩ := List.mem_map.mp h
        exact ⟨q, List.mem_cons_of_mem p hq, he.symm⟩

/-- C3: every visible trajectory's ribbon width is
`distance / maxDistance * (viewportWidth - 2 * padding)` with `maxDistance`
the maximum distance among the trajectories, and the 1000/500/2000 m
scenario at viewport 1000 px and padding 20 px yields widths 480, 240,
960 px. -/
theorem ribbonWidth_proportional :
    (∀ (paths : List PathData) (vw : ℝ) (i : ℕ), i < paths.length →
        (ribbonLayouts paths vw)[i]? =
          some ⟨(paths.getD i default).id,
            (paths.getD i default).distance / maxDistance paths * (vw - 2 * padding)⟩) ∧
    (∀ paths : List PathData, paths ≠ [] →
        (∀ p ∈ paths, p.distance ≤ maxDistance paths) ∧
        (∃ p ∈ paths, maxDistance paths = p.distance)) ∧
    (ribbonLayouts scenarioPaths 1000).map Layout.ribbonWidth = [480, 240, 960] := by
  refine ⟨?_, maxDistance_is_max, ?_⟩
  · intro paths vw i hi
    unfold ribbonLayouts
    rw [List.getElem?_map, List.getElem?_eq_getElem hi, Option.map_some',
      List.getD_eq_getElem paths default hi]
    congr 2
    ring
  · unfold ribbonLayouts scenarioPaths maxDistance listMax padding
    norm_num [max_def]

/-- C3 witness: the general width formula and max-distance characterization
instantiated on the concrete scenario. -/
theorem ribbonWidth_proportional_witness :
    (0 < scenarioPaths.length ∧
      (ribbonLayouts scenarioPaths 1000)[0]? =
        some ⟨(scenarioPaths.getD 0 default).id,
          (scenarioPaths.getD 0 default).distance / maxDistance scenarioPaths *
            (1000 - 2 * padding)⟩) ∧
    (scenarioPaths ≠ [] ∧ ∀ p ∈ scenarioPaths, p.distance ≤ maxDistance scenarioPaths) := by
  refine ⟨⟨by norm_num [scenarioPaths], ribbonWidth_proportional.1 scenarioPaths 1000 0
    (by norm_num [scenarioPaths])⟩, ⟨by simp [scenarioPaths], ?_⟩⟩
  exact (ribbonWidth_proportional.2.1 scenarioPaths (by simp [scenarioPaths])).1

/-- C8: two sequential `getTile` requests for a fresh key cause exactly one
underlying fetch, and a failed fetch is cached: the second request performs
no fetch and returns the cached failure sentinel. -/
theorem getTile_memoizes {Img : Type} (fetch : ℤ → ℤ → ℤ → Option Img)
    (cache : List ((ℤ × ℤ × ℤ) × Option Img)) (x y z : ℤ)
    (hmiss : mapGet cache (z, x, y) = none) :
    (getTile fetch cache x y z).2.2 = 1 ∧
    (getTile fetch (getTile fetch cache x y z).2.1 x y z).2.2 = 0 ∧
    (getTile fetch (getTile fetch cache x y z).2.1 x y z).1 = fetch x y z ∧
    (getTile fetch (getTile fetch cache x y z).2.1 x y z).2.1 =
      (getTile fetch cache x y z).2.1 ∧
    (fetch x y z = none →
      mapGet (getTile fetch cache x y z).2.1 (z, x, y) = some none ∧
      (getTile fetch (getTile fetch cache x y z).2.1 x y z).1 = none) := by
  simp only [getTile, hmiss]
  simp [mapGet]

/-- C8 witness: a fresh key with a failing fetch oracle. -/
theorem getTile_memoizes_witness :
    mapGet ([] : List ((ℤ × ℤ × ℤ) × Option ℕ)) (0, 0, 0) = none ∧
    (getTile (fun _ _ _ => (none : Option ℕ)) [] 0 0 0).2.2 = 1 ∧
    (getTile (fun _ _ _ => (none : Option ℕ))
      (getTile (fun _ _ _ => none) [] 0 0 0).2.1 0 0 0).2.2 = 0 := by
  have h := getTile_memoizes (fun _ _ _ => (none : Option ℕ)) [] 0 0 0 rfl
  exact ⟨rfl, h.1, h.2.1⟩

/-- C9 counterexample: with a failing fetch oracle, after the first
`getTile` the cache holds the failure sentinel (`some none`, not absent),
and the second request performs zero underlying fetches — there is no
retry. -/
theorem tileFailureNotRetried_counterexample :
    mapGet (getTile (fun _ _ _ => (none : Option ℕ)) [] 0 0 0).2.1 (0, 0, 0) =
      some none ∧
    ¬ (getTile (fun _ _ _ => (none : Option ℕ))
        (getTile (fun _ _ _ => none) [] 0 0 0).2.1 0 0 0).2.2 = 1 := by
  constructor
  · rfl
  · intro h
    exact absurd h (by decide)

/-- C9 amended: a failed tile fetch is cached as the null sentinel and is
not retried — the next request for the key returns the cached null with no
new fetch. -/
theorem tileFailureCached {Img : Type} (fetch : ℤ → ℤ → ℤ → Option Img)
    (cache : List ((ℤ × ℤ × ℤ) × Option Img)) (x y z : ℤ)
    (hmiss : mapGet cache (z, x, y) = none) (hfail : fetch x y z = none) :
    mapGet (getTile fetch cache x y z).2.1 (z, x, y) = some none ∧
    (getTile fetch (getTile fetch cache x y z).2.1 x y z).2.2 = 0 ∧
    (getTile fetch (getTile fetch cache x y z).2.1 x y z).1 = none := by
  simp only [getTile, hmiss, hfail]
  simp [mapGet]

/-- C9 amended-claim witness. -/
theorem tileFailureCached_witness :
    mapGet ([] : List ((ℤ × ℤ × ℤ) × Option ℕ)) (1, 2, 3) = none ∧
    mapGet (getTile (fun _ _ _ => (none : Option ℕ)) [] 2 3 1).2.1 (1, 2, 3) =
      some none := by
  have h := tileFailureCached (fun _ _ _ => (none : Option ℕ)) [] 2 3 1 rfl rfl
  exact ⟨rfl, h.1⟩

/-- C1: with a stale alignment (the referenced anchor crossing resolves to
nothing), `renderAllRibbons` does not silently fall back to the unaligned
layout: the alignment block resets `state.alignment` to null while the
captured `aligned` flag stays true, and the subsequent per-path loop
dereferences the null alignment — the render pass aborts with a TypeError
instead of completing. -/
theorem staleAlignment_nullDeref :
    renderAllRibbonsModel stalePaths (some ⟨(999, 999), 1⟩) 1000 =
      Except.error JsError.nullDeref := rfl

/-- C5: a self-crossing reported by `findPathCrossings(p, p)` always comes
from a segment pair `(i, j)` with `j ≥ i + 2` — never a segment and its
immediate neighbor — and the 20-point figure-eight produces exactly two
self-crossing entries, both tagged with the trajectory's own identity and
color. -/
theorem selfCrossings_spec :
    (∀ (p : PathData) (c : CrossingAB), c ∈ findPathCrossings p p →
      ∃ i j, i + 2 ≤ j ∧ j + 1 < p.geoPath.length ∧
        crossingOfPair p p (computeCumulativeDistances p.geoPath)
          (computeCumulativeDistances p.geoPath)
          ((computeCumulativeDistances p.geoPath).getLastD 0)
          ((computeCumulativeDistances p.geoPath).getLastD 0) i j = some c) ∧
    fig8.geoPath.length = 20 ∧
    (computeAllCrossings [fig8] fig8.id).length = 2 ∧
    (∀ e ∈ computeAllCrossings [fig8] fig8.id,
      e.otherPathId = fig8.id ∧ e.otherColor = fig8.color) := by
  refine ⟨?_, by decide, by decide, by decide⟩
  intro p c hc
  unfold findPathCrossings at hc
  simp only [eq_self_iff_true, if_true] at hc
  obtain ⟨i, hi, hc⟩ := List.mem_flatMap.mp hc
  obtain ⟨j, hj, hc⟩ := List.mem_flatMap.mp hc
  obtain ⟨kk, hkk, rfl⟩ := List.mem_range'.mp hj
  rw [List.mem_range] at hi
  cases hcr : crossingOfPair p p (computeCumulativeDistances p.geoPath)
      (computeCumulativeDistances p.geoPath)
      ((computeCumulativeDistances p.geoPath).getLastD 0)
      ((computeCumulativeDistances p.geoPath).getLastD 0) i (i + 2 + 1 * kk) with
  | none => rw [hcr] at hc; simp at hc
  | some c' =>
    rw [hcr] at hc
    simp only [List.mem_singleton] at hc
    subst hc
    exact ⟨i, i + 2 + 1 * kk, by omega, by omega, hcr⟩

/-- C5 witness: the figure-eight's reported self-crossing does come from a
non-adjacent segment pair. -/
theorem selfCrossings_witness :
    ∃ c ∈ findPathCrossings fig8 fig8, ∃ i j, i + 2 ≤ j ∧ j + 1 < fig8.geoPath.length ∧
      crossingOfPair fig8 fig8 (computeCumulativeDistances fig8.geoPath)
        (computeCumulativeDistances fig8.geoPath)
        ((computeCumulativeDistances fig8.geoPath).getLastD 0)
        ((computeCumulativeDistances fig8.geoPath).getLastD 0) i j = some c := by
  have hlen : (findPathCrossings fig8 fig8).length = 1 := by decide
  have hne : findPathCrossings fig8 fig8 ≠ [] := by
    intro h
    rw [h] at hlen
    simp at hlen
  exact ⟨_, List.head_mem hne, selfCrossings_spec.1 fig8 _ (List.head_mem hne)⟩

lemma foldl_pointwise {α : Type} (step : (ℕ → List CrossEntry) → α → (ℕ → List CrossEntry))
    (f : α → ℕ → List CrossEntry)
    (hs : ∀ m a k, step m a k = m k ++ f a k) :
    ∀ (l : List α) (m : ℕ → List CrossEntry) (k : ℕ),
      l.foldl step m k = m k ++ l.flatMap (fun a => f a k) := by
  intro l
  induction l with
  | nil => intro m k; simp
  | cons a t ih =>
    intro m k
    rw [List.foldl_cons, ih, hs m a k, List.flatMap_cons, List.append_assoc]

lemma pairFold_apply (pathA pathB : PathData) (m : ℕ → List CrossEntry) (k : ℕ) :
    pairFold pathA pathB m k = m k ++ pairContrib pathA pathB k := by
  unfold pairFold pairContrib
  refine foldl_pointwise
    (fun m c => pushEntry (pushEntry m pathA.id (entryA pathA pathB c)) pathB.id
      (entryB pathA pathB c))
    (fun c k => (if k = pathA.id then [entryA pathA pathB c] else []) ++
      (if k = pathB.id then [entryB pathA pathB c] else []))
    ?_ (findPathCrossings pathA pathB) m k
  intro m c k
  unfold pushEntry
  by_cases h1 : k = pathA.id <;> by_cases h2 : k = pathB.id <;>
    by_cases h3 : pathA.id = pathB.id <;> simp_all

lemma computeAllCrossings_apply (paths : List PathData) (k : ℕ) :
    computeAllCrossings paths k =
      (List.range paths.length).flatMap (fun a => iterContrib paths a k) := by
  unfold computeAllCrossings
  have hstep : ∀ (m : ℕ → List CrossEntry) (a k : ℕ),
      (List.range' (a + 1) (paths.length - (a + 1))).foldl
        (fun m b => pairFold (paths.getD a default) (paths.getD b default) m)
        (pairFold (paths.getD a default) (paths.getD a default) m) k =
      m k ++ iterContrib paths a k := by
    intro m a k
    rw [foldl_pointwise
      (fun m b => pairFold (paths.getD a default) (paths.getD b default) m)
      (fun b k => pairContrib (paths.getD a default) (paths.getD b default) k)
      (fun m b k => pairFold_apply _ _ m k) _ _ k]
    rw [pairFold_apply]
    unfold iterContrib
    rw [List.append_assoc]
  rw [foldl_pointwise
    (fun m a =>
      (List.range' (a + 1) (paths.length - (a + 1))).foldl
        (fun m b => pairFold (paths.getD a default) (paths.getD b default) m)
        (pairFold (paths.getD a default) (paths.getD a default) m))
    (fun a k => iterContrib paths a k)
    (fun m a k => hstep m a k) (List.range paths.length) (fun _ => []) k]
  simp

lemma getD_mem_of_lt (paths : List PathData) (a : ℕ) (ha : a < paths.length) :
    paths.getD a default ∈ paths := by
  rw [List.getD_eq_getElem paths default ha]
  exact List.getElem_mem ha

/-- C4: for distinct trajectories A and B, every entry on A's crossing list
referencing B has a matching entry on B's list referencing A, at the same
geographic point, with the two arc-length fractions of the underlying
crossing swapped. -/
theorem computeAllCrossings_symm (paths : List PathData)
    (hnd : (paths.map (·.id)).Nodup) :
    ∀ A ∈ paths, ∀ B ∈ paths, A.id ≠ B.id →
    ∀ e ∈ computeAllCrossings paths A.id, e.otherPathId = B.id →
    ∃ e' ∈ computeAllCrossings paths B.id,
      e'.otherPathId = A.id ∧ e'.lat = e.lat ∧ e'.lng = e.lng ∧
      ∃ c : CrossingAB,
        (c ∈ findPathCrossings A B ∧ c.lat = e.lat ∧ c.lng = e.lng ∧
          e.distFraction = c.distFractionA ∧ e'.distFraction = c.distFractionB) ∨
        (c ∈ findPathCrossings B A ∧ c.lat = e.lat ∧ c.lng = e.lng ∧
          e.distFraction = c.distFractionB ∧ e'.distFraction = c.distFractionA) := by
  intro A hA B hB hne e he hother
  have inj := List.inj_on_of_nodup_map hnd
  rw [computeAllCrossings_apply] at he
  obtain ⟨a, ha, he⟩ := List.mem_flatMap.mp he
  rw [List.mem_range] at ha
  have hpa_mem := getD_mem_of_lt paths a ha
  unfold iterContrib at he
  rcases List.mem_append.mp he with hself | hinter
  · unfold pairContrib at hself
    obtain ⟨c, hc, hmem⟩ := List.mem_flatMap.mp hself
    by_cases hid : A.id = (paths.getD a default).id
    · rw [if_pos hid, if_pos hid] at hmem
      exfalso
      rcases List.mem_append.mp hmem with h1 | h2
      · rw [List.mem_singleton] at h1
        subst h1
        simp only [entryA] at hother
        exact hne (hid.trans hother)
      · rw [List.mem_singleton] at h2
        subst h2
        simp only [entryB] at hother
        exact hne (hid.trans hother)
    · rw [if_neg hid, if_neg hid] at hmem
      simp at hmem
  · obtain ⟨b, hb, hbc⟩ := List.mem_flatMap.mp hinter
    have hb' := hb
    obtain ⟨kb, hkb, rfl⟩ := List.mem_range'.mp hb'
    have hb_lt : a + 1 + 1 * kb < paths.length := by omega
    have hpb_mem := getD_mem_of_lt paths (a + 1 + 1 * kb) hb_lt
    unfold pairContrib at hbc
    obtain ⟨c, hc, hmem⟩ := List.mem_flatMap.mp hbc
    rcases List.mem_append.mp hmem with h1 | h2
    · have hidA : A.id = (paths.getD a default).id := by
        by_contra h
        rw [if_neg h] at h1
        simp at h1
      rw [if_pos hidA, List.mem_singleton] at h1
      subst h1
      simp only [entryA] at hother
      have hApa : A = paths.getD a default := inj hA hpa_mem hidA
      have hBpb : B = paths.getD (a + 1 + 1 * kb) default :=
        inj hB hpb_mem hother.symm
      refine ⟨entryB (paths.getD a default) (paths.getD (a + 1 + 1 * kb) default) c,
        ?_, ?_, rfl, rfl, c, Or.inl ⟨?_, rfl, rfl, rfl, rfl⟩⟩
      · rw [computeAllCrossings_apply]
        refine List.mem_flatMap.mpr ⟨a, by rw [List.mem_range]; omega, ?_⟩
        unfold iterContrib
        refine List.mem_append_right _ (List.mem_flatMap.mpr ⟨a + 1 + 1 * kb, hb, ?_⟩)
        unfold pairContrib
        refine List.mem_flatMap.mpr ⟨c, hc, ?_⟩
        rw [if_neg (fun h => hne (hidA.trans h.symm)), if_pos hother.symm]
        simp [entryB]
      · exact hidA.symm
      · rw [← hApa, ← hBpb] at hc
        exact hc
    · have hidA : A.id = (paths.getD (a + 1 + 1 * kb) default).id := by
        by_contra h
        rw [if_neg h] at h2
        simp at h2
      rw [if_pos hidA, List.mem_singleton] at h2
      subst h2
      simp only [entryB] at hother
      have hApb : A = paths.getD (a + 1 + 1 * kb) default := inj hA hpb_mem hidA
      have hBpa : B = paths.getD a default := inj hB hpa_mem hother.symm
      refine ⟨entryA (paths.getD a default) (paths.getD (a + 1 + 1 * kb) default) c,
        ?_, ?_, rfl, rfl, c, Or.inr ⟨?_, rfl, rfl, rfl, rfl⟩⟩
      · rw [computeAllCrossings_apply]
        refine List.mem_flatMap.mpr ⟨a, by rw [List.mem_range]; omega, ?_⟩
        unfold iterContrib
        refine List.mem_append_right _ (List.mem_flatMap.mpr ⟨a + 1 + 1 * kb, hb, ?_⟩)
        unfold pairContrib
        refine List.mem_flatMap.mpr ⟨c, hc, ?_⟩
        rw [if_pos hother.symm]
        exact List.mem_append_left _ (List.mem_singleton.mpr rfl)
      · exact hidA.symm
      · rw [← hApb, ← hBpa] at hc
        exact hc

/-- C4 witness: the crossing-list symmetry at the concrete unit-X pair. -/
theorem computeAllCrossings_symm_witness :
    ∃ e ∈ computeAllCrossings [pathX, pathY] pathX.id,
      e.otherPathId = pathY.id ∧
      ∃ e' ∈ computeAllCrossings [pathX, pathY] pathY.id,
        e'.otherPathId = pathX.id ∧ e'.lat = e.lat ∧ e'.lng = e.lng ∧
        ∃ c : CrossingAB,
          (c ∈ findPathCrossings pathX pathY ∧ c.lat = e.lat ∧ c.lng = e.lng ∧
            e.distFraction = c.distFractionA ∧ e'.distFraction = c.distFractionB) ∨
          (c ∈ findPathCrossings pathY pathX ∧ c.lat = e.lat ∧ c.lng = e.lng ∧
            e.distFraction = c.distFractionB ∧ e'.distFraction = c.distFractionA) := by
  have hlen : (computeAllCrossings [pathX, pathY] pathX.id).length = 1 := by decide
  have hne : computeAllCrossings [pathX, pathY] pathX.id ≠ [] := by
    intro h
    rw [h] at hlen
    simp at hlen
  have hother : ((computeAllCrossings [pathX, pathY] pathX.id).head hne).otherPathId =
      pathY.id := by rfl
  exact ⟨_, List.head_mem hne, hother,
    computeAllCrossings_symm [pathX, pathY] (by decide) pathX
      (List.mem_cons_self pathX [pathY]) pathY
      (List.mem_cons_of_mem pathX (List.mem_cons_self pathY []))
      (by decide) _ (List.head_mem hne) hother⟩

lemma alignFold_invariant (cbp : ℕ → List CrossEntry) (key : ℤ × ℤ) (anchorX : ℝ)
    (anchorId : ℕ) :
    ∀ (L : List Layout) (acc : (ℕ → Option ℝ) × ℝ × ℝ),
      (L.map (·.pathId)).Nodup →
      (∀ k, k ∉ L.map (·.pathId) →
        (L.foldl (alignStep cbp key anchorX anchorId) acc).1 k = acc.1 k) ∧
      (∀ l ∈ L, (L.foldl (alignStep cbp key anchorX anchorId) acc).1 l.pathId =
        some (offVal cbp key anchorX anchorId l)) ∧
      (L.foldl (alignStep cbp key anchorX anchorId) acc).2.1 ≤ acc.2.1 ∧
      (∀ l ∈ L, l.pathId ≠ anchorId →
        (L.foldl (alignStep cbp key anchorX anchorId) acc).2.1 ≤
          padding + offVal cbp key anchorX anchorId l) := by
  intro L
  induction L with
  | nil =>
    intro acc _
    exact ⟨fun k _ => rfl, fun l hl => absurd hl (List.not_mem_nil l), le_refl _,
      fun l hl => absurd hl (List.not_mem_nil l)⟩
  | cons l0 T ih =>
    intro acc hnd
    rw [List.map_cons, List.nodup_cons] at hnd
    obtain ⟨hl0, hndT⟩ := hnd
    rw [List.foldl_cons]
    obtain ⟨ihP1, ihP2, ihP3, ihP4⟩ := ih (alignStep cbp key anchorX anchorId acc l0) hndT
    have hoff0 : l0.pathId = anchorId → offVal cbp key anchorX anchorId l0 = 0 := by
      intro h
      unfold offVal
      rw [if_pos h]
    have hstep1 : (alignStep cbp key anchorX anchorId acc l0).1 =
        offsetsUpdate acc.1 l0.pathId (offVal cbp key anchorX anchorId l0) := by
      unfold alignStep
      split_ifs with h
      · rw [hoff0 h]
      · rfl
    have hstep_min_le : (alignStep cbp key anchorX anchorId acc l0).2.1 ≤ acc.2.1 := by
      unfold alignStep
      split_ifs with h
      · exact le_refl _
      · exact min_le_left _ _
    have hstep_min_l0 : l0.pathId ≠ anchorId →
        (alignStep cbp key anchorX anchorId acc l0).2.1 ≤
          padding + offVal cbp key anchorX anchorId l0 := by
      intro h
      unfold alignStep
      rw [if_neg h]
      exact min_le_right _ _
    refine ⟨?_, ?_, ihP3.trans hstep_min_le, ?_⟩
    · intro k hk
      rw [List.map_cons, List.mem_cons] at hk
      push_neg at hk
      rw [ihP1 k hk.2, hstep1]
      unfold offsetsUpdate
      rw [if_neg hk.1]
    · intro l hl
      rcases List.mem_cons.mp hl with rfl | hl
      · rw [ihP1 l.pathId hl0, hstep1]
        unfold offsetsUpdate
        rw [if_pos rfl]
      · exact ihP2 l hl
    · intro l hl hlid
      rcases List.mem_cons.mp hl with rfl | hl
      · exact ihP3.trans (hstep_min_l0 hlid)
      · exact ihP4 l hl hlid

lemma computeAlignmentOffsets_found (layouts : List Layout) (cbp : ℕ → List CrossEntry)
    (al : AlignmentState) (vw : ℝ) (aL : Layout) (ac : CrossEntry)
    (hAL : layouts.find? (fun l => decide (l.pathId = al.anchorPathId)) = some aL)
    (hac : (cbp al.anchorPathId).find?
      (fun c => decide (keyOf c.lat c.lng = al.crossingKey)) = some ac) :
    computeAlignmentOffsets layouts cbp al vw =
      (let anchorX := padding + ac.distFraction * aL.ribbonWidth
       let folded := layouts.foldl (alignStep cbp al.crossingKey anchorX al.anchorPathId)
         ((fun _ => none), padding, padding + aL.ribbonWidth)
       let globalShift := if folded.2.1 < 0 then -folded.2.1 + padding else 0
       { drawOffsets := fun k => (folded.1 k).map (· + globalShift)
         totalCanvasWidth := folded.2.2 + globalShift + padding
         scrollTarget := anchorX + globalShift - vw / 2
         alignmentOut := some al }) := by
  unfold computeAlignmentOffsets
  rw [hAL, hac]

/-- C2: after a successful `alignToIntersection`, every ribbon whose
crossing list matches the alignment key maps that crossing to the anchor's
pixel position (within 1 px — in the exact model the positions coincide),
and no ribbon's left edge `padding + drawOffset` is negative after the
global shift. -/
theorem alignment_invariant (layouts : List Layout) (cbp : ℕ → List CrossEntry)
    (al : AlignmentState) (vw : ℝ)
    (hnd : (layouts.map (·.pathId)).Nodup) (aL : Layout) (ac : CrossEntry)
    (hAL : layouts.find? (fun l => decide (l.pathId = al.anchorPathId)) = some aL)
    (hac : (cbp al.anchorPathId).find?
      (fun c => decide (keyOf c.lat c.lng = al.crossingKey)) = some ac) :
    (∀ l ∈ layouts, ∀ c : CrossEntry,
      (cbp l.pathId).find?
        (fun c => decide (keyOf c.lat c.lng = al.crossingKey)) = some c →
      |(padding + ((computeAlignmentOffsets layouts cbp al vw).drawOffsets l.pathId).getD 0 +
          c.distFraction * l.ribbonWidth) -
        (padding +
          ((computeAlignmentOffsets layouts cbp al vw).drawOffsets al.anchorPathId).getD 0 +
          ac.distFraction * aL.ribbonWidth)| ≤ 1) ∧
    (∀ l ∈ layouts,
      0 ≤ padding +
        ((computeAlignmentOffsets layouts cbp al vw).drawOffsets l.pathId).getD 0) := by
  have haLmem : aL ∈ layouts := List.mem_of_find?_eq_some hAL
  have haLid' := List.find?_some hAL
  have haLid : aL.pathId = al.anchorPathId := by simpa using haLid'
  have inj := List.inj_on_of_nodup_map hnd
  rw [computeAlignmentOffsets_found layouts cbp al vw aL ac hAL hac]
  dsimp only
  set anchorX := padding + ac.distFraction * aL.ribbonWidth with hanchorX
  set F := layouts.foldl (alignStep cbp al.crossingKey anchorX al.anchorPathId)
    ((fun _ => none), padding, padding + aL.ribbonWidth) with hF
  set gs : ℝ := if F.2.1 < 0 then -F.2.1 + padding else 0 with hgs
  obtain ⟨-, hP2, -, hP4⟩ := alignFold_invariant cbp al.crossingKey anchorX al.anchorPathId
    layouts ((fun _ => none), padding, padding + aL.ribbonWidth) hnd
  rw [← hF] at hP2 hP4
  have hgs_nonneg : 0 ≤ gs := by
    rw [hgs]
    split_ifs with h
    · unfold padding
      linarith
    · exact le_refl 0
  have hoffs : ∀ l ∈ layouts, ((F.1 l.pathId).map (· + gs)).getD 0 =
      offVal cbp al.crossingKey anchorX al.anchorPathId l + gs := by
    intro l hl
    rw [hP2 l hl]
    rfl
  have hanchor_off : ((F.1 al.anchorPathId).map (· + gs)).getD 0 = gs := by
    have h := hP2 aL haLmem
    rw [haLid] at h
    rw [h]
    have : offVal cbp al.crossingKey anchorX al.anchorPathId aL = 0 := by
      unfold offVal
      rw [if_pos haLid]
    rw [this]
    simp
  constructor
  · intro l hl c hc
    rw [hoffs l hl, hanchor_off]
    by_cases hlid : l.pathId = al.anchorPathId
    · have hlaL : l = aL := inj hl haLmem (hlid.trans haLid.symm)
      have hcac : c = ac := by
        rw [hlid] at hc
        rw [hc] at hac
        exact Option.some_inj.mp hac
      subst hlaL
      subst hcac
      have hzero : offVal cbp al.crossingKey anchorX al.anchorPathId l = 0 := by
        unfold offVal
        rw [if_pos hlid]
      rw [hzero]
      have : padding + (0 + gs) + c.distFraction * l.ribbonWidth -
          (padding + gs + c.distFraction * l.ribbonWidth) = 0 := by ring
      rw [this, abs_zero]
      norm_num
    · have hoffv : offVal cbp al.crossingKey anchorX al.anchorPathId l =
          anchorX - (padding + c.distFraction * l.ribbonWidth) := by
        unfold offVal
        rw [if_neg hlid, hc]
      rw [hoffv, hanchorX]
      have : padding + (padding + ac.distFraction * aL.ribbonWidth -
            (padding + c.distFraction * l.ribbonWidth) + gs) +
            c.distFraction * l.ribbonWidth -
          (padding + gs + ac.distFraction * aL.ribbonWidth) = 0 := by ring
      rw [this, abs_zero]
      norm_num
  · intro l hl
    rw [hoffs l hl]
    by_cases hlid : l.pathId = al.anchorPathId
    · have hzero : offVal cbp al.crossingKey anchorX al.anchorPathId l = 0 := by
        unfold offVal
        rw [if_pos hlid]
      rw [hzero]
      unfold padding
      linarith
    · have hmin := hP4 l hl hlid
      rw [hgs]
      split_ifs with h
      · unfold padding at *
        linarith
      · push_neg at h
        linarith

/-- C2 witness: the alignment invariant at the concrete two-ribbon input. -/
theorem alignment_invariant_witness :
    ((wLayouts.map (·.pathId)).Nodup ∧
      wLayouts.find? (fun l => decide (l.pathId = wAlign.anchorPathId)) =
        some ⟨1, 960⟩ ∧
      (wCbp wAlign.anchorPathId).find?
        (fun c => decide (keyOf c.lat c.lng = wAlign.crossingKey)) =
        some ⟨1/2, "colorB", 2, 0, 0⟩ ∧
      (wCbp 2).find? (fun c => decide (keyOf c.lat c.lng = wAlign.crossingKey)) =
        some ⟨1/4, "colorA", 1, 0, 0⟩) ∧
    |(padding + ((computeAlignmentOffsets wLayouts wCbp wAlign 1000).drawOffsets 2).getD 0 +
        (1/4 : ℝ) * 480) -
      (padding + ((computeAlignmentOffsets wLayouts wCbp wAlign 1000).drawOffsets
          wAlign.anchorPathId).getD 0 + (1/2 : ℝ) * 960)| ≤ 1 ∧
    (∀ l ∈ wLayouts,
      0 ≤ padding +
        ((computeAlignmentOffsets wLayouts wCbp wAlign 1000).drawOffsets l.pathId).getD 0) := by
  have h1 : (wLayouts.map (·.pathId)).Nodup := by decide
  have h2 : wLayouts.find? (fun l => decide (l.pathId = wAlign.anchorPathId)) =
      some ⟨1, 960⟩ := by rfl
  have h3 : (wCbp wAlign.anchorPathId).find?
      (fun c => decide (keyOf c.lat c.lng = wAlign.crossingKey)) =
      some ⟨1/2, "colorB", 2, 0, 0⟩ := by rfl
  have h4 : (wCbp 2).find? (fun c => decide (keyOf c.lat c.lng = wAlign.crossingKey)) =
      some ⟨1/4, "colorA", 1, 0, 0⟩ := by rfl
  have hmain := alignment_invariant wLayouts wCbp wAlign 1000 h1 ⟨1, 960⟩
    ⟨1/2, "colorB", 2, 0, 0⟩ h2 h3
  refine ⟨⟨h1, h2, h3, h4⟩, ?_, hmain.2⟩
  have := hmain.1 ⟨2, 480⟩ (by simp [wLayouts]) ⟨1/4, "colorA", 1, 0, 0⟩ h4
  simpa using this
